import Mathlib

/-!
Verification of the rename engine shared by the three variants of this
repository: the PyQt5 GUI (renamer_dnd.py), the PyQt6 GUI
(renamer_dnd_Qt6.py, whose rename_files body is line-for-line the same
logic as the PyQt5 one), and the directory-walking batch script
(rename_pbr_textures.py).

Strings are modelled as List Char.  Python's str.replace, str.strip,
os.path.basename / dirname / join, and the per-file loops of the three
rename_files functions are embedded as executable Lean functions below.
The filesystem is abstracted by an oracle of type
List Char -> List Char -> Except (List Char) Unit: the result of the
single os.rename system call on the given source and destination paths
(an error value carries the exception message).  Every rename call a run
performs is collected so that claims about which filesystem mutations
happen can be stated exactly.
-/

/-- Model of the path separator used by os.path.join / basename / dirname. -/
def pathSep : Char := '/'

/-- Worker for Python str.replace with a non-empty needle: scans left to
right; a counter counts matched characters that must still be consumed
after a replacement has been emitted, which yields the non-overlapping
replace-all semantics of CPython. -/
def pyReplaceGo (m r : List Char) : Nat → List Char → List Char
  | _, [] => []
  | k + 1, _ :: cs => pyReplaceGo m r k cs
  | 0, c :: cs =>
    if m <+: c :: cs then r ++ pyReplaceGo m r (m.length - 1) cs
    else c :: pyReplaceGo m r 0 cs

/-- Model of Python str.replace(m, r): literal, case-sensitive,
left-to-right, non-overlapping replace-all.  For the empty needle CPython
inserts the replacement at every position, including both ends. -/
def pyReplace (m r s : List Char) : List Char :=
  if m = [] then r ++ s.flatMap (fun c => c :: r) else pyReplaceGo m r 0 s

/-- Model of Python str.strip(): remove whitespace from both ends. -/
def pyStrip (s : List Char) : List Char :=
  (s.dropWhile Char.isWhitespace).rdropWhile Char.isWhitespace

/-- Model of os.path.basename: the part after the last separator. -/
def basename (p : List Char) : List Char :=
  (p.reverse.takeWhile (fun c => c ≠ pathSep)).reverse

/-- Model of os.path.dirname: the part before the last separator.  (The
edge case of a file directly under the filesystem root, where Python
keeps the bare separator, is not needed by any claim and not modelled.) -/
def dirname (p : List Char) : List Char :=
  ((p.reverse.dropWhile (fun c => c ≠ pathSep)).drop 1).reverse

/-- Model of os.path.join(root, name) for a root with no trailing
separator. -/
def osJoin (root name : List Char) : List Char :=
  root ++ pathSep :: name

/-- Per-candidate result, as reported by the log lines of the sources:
renamed, skipped, or failed with the exception message. -/
inductive RenameOutcome where
  | Renamed (oldName newName : List Char)
  | Skipped (name : List Char)
  | Failed (name errMsg : List Char)
deriving DecidableEq, Repr

/-- One iteration of the rule loop of rename_pbr_textures.rename_files
(lines 116-118): the rule fires iff its match string occurs in the
current, possibly already rewritten, name. -/
def applyRule (name : List Char) (rule : List Char × List Char) : List Char :=
  if rule.1 <:+: name then pyReplace rule.1 rule.2 name else name

/-- The new name computed by the batch script for one file: all rules
applied sequentially, in insertion order, over the progressively
rewritten name (rename_pbr_textures.py lines 114-118). -/
def computeNewName (patterns : List (List Char × List Char)) (file : List Char) : List Char :=
  patterns.foldl applyRule file

/-- The per-file body of rename_pbr_textures.rename_files (lines 112-135):
compute the new name, skip if the joined paths coincide, otherwise try
os.rename and record either success or the caught exception.  Returns the
reported outcome together with the list of rename system calls made. -/
def batchStep (osRename : List Char → List Char → Except (List Char) Unit)
    (patterns : List (List Char × List Char)) (root file : List Char) :
    RenameOutcome × List (List Char × List Char) :=
  let newFileName := computeNewName patterns file
  let oldPath := osJoin root file
  let newPath := osJoin root newFileName
  if oldPath ≠ newPath then
    match osRename oldPath newPath with
    | Except.ok _ => (RenameOutcome.Renamed file newFileName, [(oldPath, newPath)])
    | Except.error e => (RenameOutcome.Failed file e, [(oldPath, newPath)])
  else (RenameOutcome.Skipped file, [])

/-- The extension filter of the batch walk: only names ending in .png are
processed (rename_pbr_textures.py line 111). -/
def isPng (file : List Char) : Bool := decide (['.', 'p', 'n', 'g'] <:+ file)

/-- The outcome sequence the batch loop reports for the files of one
directory, in file order. -/
def batchOutcomes (osRename : List Char → List Char → Except (List Char) Unit)
    (patterns : List (List Char × List Char)) (root : List Char)
    (files : List (List Char)) : List RenameOutcome :=
  (files.filter isPng).map (fun f => (batchStep osRename patterns root f).1)

/-- The rename system calls the batch loop performs for the files of one
directory, in order. -/
def batchCalls (osRename : List Char → List Char → Except (List Char) Unit)
    (patterns : List (List Char × List Char)) (root : List Char)
    (files : List (List Char)) : List (List Char × List Char) :=
  (files.filter isPng).flatMap (fun f => (batchStep osRename patterns root f).2)

/-- rename_pbr_textures.load_rename_patterns calls csv.reader without
ever importing the csv module, so at runtime Python raises
NameError (name csv is not defined) before a single row is read; the
surrounding except-Exception handler catches it, prints a message and the
function returns the patterns dict accumulated so far. -/
def csvReaderRun : Except (List Char) (List (List (List Char))) :=
  Except.error ['N', 'a', 'm', 'e', 'E', 'r', 'r', 'o', 'r']

/-- Python dict assignment patterns[k] = v: an existing key keeps its
original position and gets the new value, a new key is appended. -/
def dictInsert (pats : List (List Char × List Char)) (k v : List Char) :
    List (List Char × List Char) :=
  if (pats.map Prod.fst).contains k then
    pats.map (fun kv => if kv.1 = k then (k, v) else kv)
  else pats ++ [(k, v)]

/-- Model of rename_pbr_textures.load_rename_patterns (lines 84-97): rows
of exactly two columns are stripped and inserted into the dict; any
exception makes the function return what was accumulated so far.  Because
csv.reader raises NameError at once (csvReaderRun), the result is always
the empty mapping. -/
def load_rename_patterns : List (List Char × List Char) :=
  match csvReaderRun with
  | Except.error _ => []
  | Except.ok rows =>
    rows.foldl
      (fun pats row =>
        match row with
        | [a, b] => dictInsert pats (pyStrip a) (pyStrip b)
        | _ => pats)
      []

/-- The per-candidate body of the GUI loop (renamer_dnd.py lines 146-158,
identical in renamer_dnd_Qt6.py lines 191-203): split the path, and only
when the pattern occurs in the base filename compute the replacement and
attempt os.rename; a candidate whose filename does not contain the
pattern produces no log line and no filesystem call.  Returns the
reported outcome, if any, with the rename system calls made. -/
def guiStep (osRename : List Char → List Char → Except (List Char) Unit)
    (p r filePath : List Char) :
    Option RenameOutcome × List (List Char × List Char) :=
  let folder := dirname filePath
  let filename := basename filePath
  if p <:+: filename then
    let newFilename := pyReplace p r filename
    let newFilePath := osJoin folder newFilename
    match osRename filePath newFilePath with
    | Except.ok _ => (some (RenameOutcome.Renamed filename newFilename), [(filePath, newFilePath)])
    | Except.error e => (some (RenameOutcome.Failed filename e), [(filePath, newFilePath)])
  else (none, [])

/-- The sequence of log-line outcomes the GUI loop reports, in candidate
order; candidates whose filename does not contain the pattern contribute
nothing. -/
def guiOutcomes (osRename : List Char → List Char → Except (List Char) Unit)
    (p r : List Char) (files : List (List Char)) : List RenameOutcome :=
  files.filterMap (fun fp => (guiStep osRename p r fp).1)

/-- The rename system calls the GUI loop performs, in order. -/
def guiCalls (osRename : List Char → List Char → Except (List Char) Unit)
    (p r : List Char) (files : List (List Char)) : List (List Char × List Char) :=
  files.flatMap (fun fp => (guiStep osRename p r fp).2)

/-- The state of the GUI that rename_files reads and writes: the candidate
working set self.files and the two text inputs. -/
structure GuiState where
  files : List (List Char)
  patternInput : List Char
  replaceInput : List Char
deriving DecidableEq, Repr

/-- What one click of Process produces: the early-return validation
messages, or the processed log with the rename calls made. -/
inductive GuiResult where
  | noFiles
  | emptyPattern
  | processed (outcomes : List RenameOutcome) (renameCalls : List (List Char × List Char))
deriving DecidableEq, Repr

/-- Model of FileRenamerApp.rename_files of renamer_dnd.py (lines 132-161)
and renamer_dnd_Qt6.py (lines 174-204), whose bodies implement the same
logic: early return when there are no files; strip both inputs; early
return when the stripped pattern is empty; otherwise run the loop and
unconditionally call clear_files, which empties the working set. -/
def gui_rename_files (osRename : List Char → List Char → Except (List Char) Unit)
    (st : GuiState) : GuiResult × GuiState :=
  if st.files = [] then (GuiResult.noFiles, st)
  else
    let p := pyStrip st.patternInput
    let r := pyStrip st.replaceInput
    if p = [] then (GuiResult.emptyPattern, st)
    else
      (GuiResult.processed (guiOutcomes osRename p r st.files) (guiCalls osRename p r st.files),
        { st with files := [] })

/-- One offered URL of the GUI dropEvent (renamer_dnd.py lines 119-124,
renamer_dnd_Qt6.py lines 77-83): the path is appended iff it is a regular
file and not already in the working set. -/
def offer (isFile : List Char → Bool) (acc : List (List Char)) (fp : List Char) :
    List (List Char) :=
  if isFile fp = true ∧ fp ∉ acc then acc ++ [fp] else acc

/-- The candidate working set built from a sequence of offered paths,
starting from the empty set the GUI starts with. -/
def intake (isFile : List Char → Bool) (offers : List (List Char)) : List (List Char) :=
  offers.foldl (offer isFile) []

/-- Oracle for runs in which every rename system call succeeds. -/
def renameAlwaysOk : List Char → List Char → Except (List Char) Unit :=
  fun _ _ => Except.ok ()

/-- Oracle for runs in which every rename system call fails with a fixed
message. -/
def renameAlwaysFail : List Char → List Char → Except (List Char) Unit :=
  fun _ _ => Except.error ['E', 'r', 'r']

theorem pyReplace_example1 :
    pyReplace ['a', 'a'] ['x'] ['a', 'a', 'a'] = ['x', 'a'] := by decide

theorem pyReplace_example2 :
    pyReplace [] ['-'] ['a', 'b'] = ['-', 'a', '-', 'b', '-'] := by decide

theorem subOfPre {m s : List Char} (h : m <+: s) : m <:+: s := by
  obtain ⟨t, rfl⟩ := h
  exact ⟨[], t, by simp⟩

theorem subCons {m s : List Char} (c : Char) (h : m <:+: s) : m <:+: c :: s := by
  obtain ⟨u, v, rfl⟩ := h
  exact ⟨c :: u, v, by simp⟩

theorem pyReplaceGo_skip (m r : List Char) :
    ∀ (t : List Char) (k : Nat), pyReplaceGo m r k t = pyReplaceGo m r 0 (t.drop k) := by
  intro t
  induction t with
  | nil => intro k; cases k <;> rfl
  | cons c cs ih =>
    intro k
    cases k with
    | zero => rfl
    | succ j => simpa [pyReplaceGo] using ih j

theorem pyReplace_nil (m r : List Char) (hm : m ≠ []) : pyReplace m r [] = [] := by
  simp [pyReplace, hm, pyReplaceGo]

theorem pyReplace_pos (m r : List Char) (c : Char) (cs : List Char) (hm : m ≠ [])
    (h : m <+: c :: cs) :
    pyReplace m r (c :: cs) = r ++ pyReplace m r ((c :: cs).drop m.length) := by
  have hlen : m.length = (m.length - 1) + 1 :=
    (Nat.succ_pred_eq_of_pos (List.length_pos.mpr hm)).symm
  have hdrop : (c :: cs).drop m.length = cs.drop (m.length - 1) := by
    rw [hlen]; rfl
  rw [hdrop]
  simp only [pyReplace, hm, if_false]
  rw [show pyReplaceGo m r 0 (c :: cs) =
      (if m <+: c :: cs then r ++ pyReplaceGo m r (m.length - 1) cs
        else c :: pyReplaceGo m r 0 cs) from rfl]
  rw [if_pos h, pyReplaceGo_skip m r cs (m.length - 1)]

theorem pyReplace_neg (m r : List Char) (c : Char) (cs : List Char) (hm : m ≠ [])
    (h : ¬ m <+: c :: cs) :
    pyReplace m r (c :: cs) = c :: pyReplace m r cs := by
  simp only [pyReplace, hm, if_false]
  rw [show pyReplaceGo m r 0 (c :: cs) =
      (if m <+: c :: cs then r ++ pyReplaceGo m r (m.length - 1) cs
        else c :: pyReplaceGo m r 0 cs) from rfl]
  rw [if_neg h]

theorem pyReplace_of_not_occurs (m r : List Char) (hm : m ≠ []) :
    ∀ s : List Char, ¬ m <:+: s → pyReplace m r s = s := by
  intro s
  induction s with
  | nil => intro _; exact pyReplace_nil m r hm
  | cons c cs ih =>
    intro h
    have hp : ¬ m <+: c :: cs := fun hp => h (subOfPre hp)
    have ht : ¬ m <:+: cs := fun hi => h (subCons c hi)
    rw [pyReplace_neg m r c cs hm hp, ih ht]

theorem dropWhile_idem (p : Char → Bool) (l : List Char) :
    (l.dropWhile p).dropWhile p = l.dropWhile p := by
  induction l with
  | nil => rfl
  | cons c cs ih =>
    by_cases hp : p c
    · simp [List.dropWhile_cons, hp, ih]
    · simp [List.dropWhile_cons, hp]

theorem frontStripped_rdropWhile (p : Char → Bool) (l : List Char)
    (h : l.dropWhile p = l) : (l.rdropWhile p).dropWhile p = l.rdropWhile p := by
  have hpre := List.rdropWhile_prefix p l
  cases hq : l.rdropWhile p with
  | nil => rfl
  | cons x t =>
    rw [hq] at hpre
    obtain ⟨u, hu⟩ := hpre
    have h0 : 0 < l.length := by rw [← hu]; simp
    have hhead := (List.dropWhile_eq_self_iff).mp h h0
    have hget : l.get ⟨0, h0⟩ = x := by
      subst hu; rfl
    rw [hget] at hhead
    have hx : p x = false := by simpa using hhead
    simp [List.dropWhile_cons, hx]

theorem rdropWhile_idem (p : Char → Bool) (l : List Char) :
    (l.rdropWhile p).rdropWhile p = l.rdropWhile p := by
  simp [List.rdropWhile, dropWhile_idem]

theorem pyStrip_idem (s : List Char) : pyStrip (pyStrip s) = pyStrip s := by
  unfold pyStrip
  rw [frontStripped_rdropWhile _ _ (dropWhile_idem _ _), rdropWhile_idem]

theorem pyStrip_eq_nil_of_ws (s : List Char) (h : ∀ c ∈ s, c.isWhitespace) :
    pyStrip s = [] := by
  unfold pyStrip
  rw [List.dropWhile_eq_nil_iff.mpr h]
  rfl

theorem offer_mem (isFile : List Char → Bool) (acc : List (List Char))
    (fp : List Char) (h : fp ∈ acc) : offer isFile acc fp = acc := by
  unfold offer
  rw [if_neg]
  intro hc
  exact hc.2 h

theorem foldl_offer_nodup (isFile : List Char → Bool) :
    ∀ (l : List (List Char)) (acc : List (List Char)), acc.Nodup →
      (l.foldl (offer isFile) acc).Nodup := by
  intro l
  induction l with
  | nil => intro acc h; exact h
  | cons x xs ih =>
    intro acc h
    refine ih _ ?_
    unfold offer
    split
    · next hc => simp [List.nodup_append, h, hc.2]
    · exact h

theorem foldl_offer_extends (isFile : List Char → Bool) :
    ∀ (l : List (List Char)) (acc : List (List Char)),
      acc <+: l.foldl (offer isFile) acc := by
  intro l
  induction l with
  | nil => intro acc; exact ⟨[], by simp⟩
  | cons x xs ih =>
    intro acc
    have h1 : acc <+: offer isFile acc x := by
      unfold offer
      split
      · exact ⟨[x], rfl⟩
      · exact ⟨[], by simp⟩
    exact h1.trans (ih (offer isFile acc x))

/-- Claim C1: computeNewName performs literal, case-sensitive substring
replace-all: with a non-empty match, a name without an occurrence is
returned unchanged, a leftmost occurrence is replaced and scanning resumes
after it (left to right, non-overlapping), a non-matching head character
is kept and scanning moves right; the guarded single-rule step of the
sources equals the bare replace-all; and a multi-rule set is applied
sequentially in insertion order over the progressively rewritten name. -/
theorem C1_replace_all_semantics (m r : List Char) (hm : m ≠ []) :
    (∀ s : List Char, ¬ m <:+: s → pyReplace m r s = s)
    ∧ (∀ s : List Char, m <+: s →
        pyReplace m r s = r ++ pyReplace m r (s.drop m.length))
    ∧ (∀ (c : Char) (cs : List Char), ¬ m <+: c :: cs →
        pyReplace m r (c :: cs) = c :: pyReplace m r cs)
    ∧ (∀ s : List Char, applyRule s (m, r) = pyReplace m r s)
    ∧ (∀ (rule : List Char × List Char) (rules : List (List Char × List Char)) (s : List Char),
        computeNewName (rule :: rules) s = computeNewName rules (applyRule s rule))
    ∧ (∀ s : List Char, computeNewName [(m, r)] s = pyReplace m r s) := by
  have hsingle : ∀ s : List Char, applyRule s (m, r) = pyReplace m r s := by
    intro s
    unfold applyRule
    by_cases hocc : m <:+: s
    · rw [if_pos hocc]
    · rw [if_neg hocc, pyReplace_of_not_occurs m r hm s hocc]
  refine ⟨pyReplace_of_not_occurs m r hm, ?_, fun c cs h => pyReplace_neg m r c cs hm h,
    hsingle, fun _ _ _ => rfl, fun s => hsingle s⟩
  intro s hp
  cases s with
  | nil =>
    exfalso
    exact hm (List.prefix_nil.mp hp)
  | cons c cs => exact pyReplace_pos m r c cs hm hp

theorem C1_replace_all_semantics_witness :
    pyReplace ['a', 'b'] ['x'] ['a', 'b', 'c', 'a', 'b']
      = ['x'] ++ pyReplace ['a', 'b'] ['x'] ['c', 'a', 'b'] :=
  (C1_replace_all_semantics ['a', 'b'] ['x'] (by decide)).2.1
    ['a', 'b', 'c', 'a', 'b'] (by decide)

/-- Claim C2 counterexample: in the GUI variants, when the pattern occurs
in the filename but the replacement is identical to the pattern, the
computed new name equals the old base filename, yet the loop still makes
a rename system call and reports Renamed, not Skipped. -/
theorem C2_counterexample :
    pyReplace ['a'] ['a'] ['a', '.', 'p', 'n', 'g'] = ['a', '.', 'p', 'n', 'g']
    ∧ (guiStep renameAlwaysOk ['a'] ['a'] ['/', 'd', '/', 'a', '.', 'p', 'n', 'g']).2
        = [(['/', 'd', '/', 'a', '.', 'p', 'n', 'g'], ['/', 'd', '/', 'a', '.', 'p', 'n', 'g'])]
    ∧ (guiStep renameAlwaysOk ['a'] ['a'] ['/', 'd', '/', 'a', '.', 'p', 'n', 'g']).1
        = some (RenameOutcome.Renamed ['a', '.', 'p', 'n', 'g'] ['a', '.', 'p', 'n', 'g']) := by
  decide

/-- Claim C2 amended: in the batch variant a candidate whose computed new
name equals its old name yields Skipped with no filesystem call; in the
GUI variants this holds only when the pattern does not occur in the base
filename — when the pattern occurs, a rename system call is attempted
even if the computed new name equals the old one. -/
theorem C2_amended_skip_no_call (osRename : List Char → List Char → Except (List Char) Unit)
    (patterns : List (List Char × List Char)) (root file p r fp : List Char) :
    (computeNewName patterns file = file →
      batchStep osRename patterns root file = (RenameOutcome.Skipped file, []))
    ∧ (¬ p <:+: basename fp → guiStep osRename p r fp = (none, []))
    ∧ (p <:+: basename fp → (guiStep osRename p r fp).2 ≠ []) := by
  refine ⟨?_, ?_, ?_⟩
  · intro h
    unfold batchStep
    rw [h]
    simp
  · intro h
    simp [guiStep, h]
  · intro h
    cases hres : osRename fp (osJoin (dirname fp) (pyReplace p r (basename fp))) <;>
      simp [guiStep, h, hres]

theorem C2_amended_skip_no_call_witness :
    batchStep renameAlwaysOk [(['z'], ['q'])] ['/', 'r'] ['a', '.', 'p', 'n', 'g']
      = (RenameOutcome.Skipped ['a', '.', 'p', 'n', 'g'], []) :=
  (C2_amended_skip_no_call renameAlwaysOk [(['z'], ['q'])] ['/', 'r']
    ['a', '.', 'p', 'n', 'g'] [] [] []).1 (by decide)

/-- Claim C3 counterexample: the batch variant performs no empty-pattern
validation at all — a rule with an empty match string makes the loop
perform Python's insert-at-every-position replace and attempt a rename,
instead of the run being rejected before any filesystem mutation. -/
theorem C3_counterexample :
    batchStep renameAlwaysOk [([], ['-'])] ['/', 'r'] ['a', '.', 'p', 'n', 'g']
      = (RenameOutcome.Renamed ['a', '.', 'p', 'n', 'g']
          ['-', 'a', '-', '.', '-', 'p', '-', 'n', '-', 'g', '-'],
        [(osJoin ['/', 'r'] ['a', '.', 'p', 'n', 'g'],
          osJoin ['/', 'r'] ['-', 'a', '-', '.', '-', 'p', '-', 'n', '-', 'g', '-'])])
    ∧ batchCalls renameAlwaysOk [([], ['-'])] ['/', 'r'] [['a', '.', 'p', 'n', 'g']] ≠ [] := by
  decide

/-- Claim C3 amended: the GUI variants reject an empty (stripped) pattern
before any candidate is processed and before any filesystem call, leaving
the state untouched; the batch variant has no such validation — an
empty-match rule in its mapping triggers an insert-at-every-position
replace and a rename attempt (though its rule loader in fact always
returns the empty mapping, so no rule ever reaches the loop in a real
run). -/
theorem C3_amended_validation (osRename : List Char → List Char → Except (List Char) Unit)
    (st : GuiState) :
    (pyStrip st.patternInput = [] → st.files ≠ [] →
      gui_rename_files osRename st = (GuiResult.emptyPattern, st))
    ∧ computeNewName [([], ['-'])] ['a', '.', 'p', 'n', 'g']
        = ['-', 'a', '-', '.', '-', 'p', '-', 'n', '-', 'g', '-']
    ∧ (batchStep renameAlwaysOk [([], ['-'])] ['/', 'r'] ['a', '.', 'p', 'n', 'g']).2 ≠ [] := by
  refine ⟨?_, by decide, by decide⟩
  intro hp hf
  simp [gui_rename_files, hp, hf]

theorem C3_amended_validation_witness :
    gui_rename_files renameAlwaysOk ⟨[['/', 'd', '/', 'a']], [' ', ' '], ['x']⟩
      = (GuiResult.emptyPattern, ⟨[['/', 'd', '/', 'a']], [' ', ' '], ['x']⟩) :=
  (C3_amended_validation renameAlwaysOk ⟨[['/', 'd', '/', 'a']], [' ', ' '], ['x']⟩).1
    (by decide) (by decide)

theorem guiStep_fst_none (osRename : List Char → List Char → Except (List Char) Unit)
    (p r fp : List Char) (h : ¬ p <:+: basename fp) :
    (guiStep osRename p r fp).1 = none := by
  simp [guiStep, h]

theorem guiStep_fst_some (osRename : List Char → List Char → Except (List Char) Unit)
    (p r fp : List Char) (h : p <:+: basename fp) :
    ∃ o : RenameOutcome, (guiStep osRename p r fp).1 = some o := by
  cases hres : osRename fp (osJoin (dirname fp) (pyReplace p r (basename fp))) with
  | ok u =>
    exact ⟨RenameOutcome.Renamed (basename fp) (pyReplace p r (basename fp)),
      by simp [guiStep, h, hres]⟩
  | error e =>
    exact ⟨RenameOutcome.Failed (basename fp) e, by simp [guiStep, h, hres]⟩

/-- Claim C4 counterexample: a GUI candidate whose filename does not
contain the pattern produces no reported outcome at all, so the reported
outcome sequence is shorter than the candidate sequence. -/
theorem C4_counterexample :
    guiOutcomes renameAlwaysOk ['x'] ['y'] [['/', 'd', '/', 'b', '.', 'p', 'n', 'g']] = []
    ∧ ([['/', 'd', '/', 'b', '.', 'p', 'n', 'g']] : List (List Char)).length = 1 := by
  decide

/-- Claim C4 amended: the batch variant reports exactly one outcome per
candidate (per .png file of the walk), in candidate order; the GUI
variants report an outcome (Renamed or Failed) only for candidates whose
base filename contains the pattern — candidates without a match are
passed over silently, so the reported sequence can be shorter than the
candidate sequence. -/
theorem C4_amended_one_outcome (osRename : List Char → List Char → Except (List Char) Unit)
    (patterns : List (List Char × List Char)) (root p r : List Char)
    (files : List (List Char)) :
    (batchOutcomes osRename patterns root files).length = (files.filter isPng).length
    ∧ (∀ i : Nat, (batchOutcomes osRename patterns root files)[i]?
        = ((files.filter isPng)[i]?).map (fun f => (batchStep osRename patterns root f).1))
    ∧ (guiOutcomes osRename p r files).length
        = (files.filter (fun fp => decide (p <:+: basename fp))).length := by
  refine ⟨by simp [batchOutcomes], fun i => by simp [batchOutcomes], ?_⟩
  induction files with
  | nil => rfl
  | cons fp fs ih =>
    by_cases hocc : p <:+: basename fp
    · obtain ⟨o, ho⟩ := guiStep_fst_some osRename p r fp hocc
      simp [guiOutcomes, List.filterMap_cons, ho, List.filter_cons, hocc]
      simpa [guiOutcomes] using ih
    · simp [guiOutcomes, List.filterMap_cons, guiStep_fst_none osRename p r fp hocc,
        List.filter_cons, hocc]
      simpa [guiOutcomes] using ih

/-- Claim C5: a failing rename system call is captured into a Failed
outcome carrying the exception message, in both the batch loop and the
GUI loop; and processing one candidate — however it turns out — never
changes what happens to the remaining candidates: the outcome sequence of
a candidate list is the outcomes of its head followed by the outcomes of
its tail, for every filesystem oracle. -/
theorem C5_failure_captured (osRename : List Char → List Char → Except (List Char) Unit)
    (patterns : List (List Char × List Char)) (root f p r fp e : List Char)
    (files : List (List Char)) :
    (osRename (osJoin root f) (osJoin root (computeNewName patterns f)) = Except.error e →
      osJoin root f ≠ osJoin root (computeNewName patterns f) →
      batchStep osRename patterns root f
        = (RenameOutcome.Failed f e,
          [(osJoin root f, osJoin root (computeNewName patterns f))]))
    ∧ batchOutcomes osRename patterns root (f :: files)
        = (if isPng f then [(batchStep osRename patterns root f).1] else [])
          ++ batchOutcomes osRename patterns root files
    ∧ (p <:+: basename fp →
        osRename fp (osJoin (dirname fp) (pyReplace p r (basename fp))) = Except.error e →
        (guiStep osRename p r fp).1 = some (RenameOutcome.Failed (basename fp) e))
    ∧ guiOutcomes osRename p r (fp :: files)
        = (guiStep osRename p r fp).1.toList ++ guiOutcomes osRename p r files := by
  refine ⟨?_, ?_, ?_, ?_⟩
  · intro herr hne
    unfold batchStep
    rw [if_pos hne, herr]
  · by_cases hpng : isPng f <;> simp [batchOutcomes, List.filter_cons, hpng]
  · intro hocc herr
    simp [guiStep, hocc, herr]
  · cases h1 : (guiStep osRename p r fp).1 <;>
      simp [guiOutcomes, List.filterMap_cons, h1]

theorem C5_failure_captured_witness :
    batchStep renameAlwaysFail [(['a'], ['b'])] ['/', 'r'] ['a', '.', 'p', 'n', 'g']
      = (RenameOutcome.Failed ['a', '.', 'p', 'n', 'g'] ['E', 'r', 'r'],
        [(osJoin ['/', 'r'] ['a', '.', 'p', 'n', 'g'],
          osJoin ['/', 'r']
            (computeNewName [(['a'], ['b'])] ['a', '.', 'p', 'n', 'g']))]) :=
  (C5_failure_captured renameAlwaysFail [(['a'], ['b'])] ['/', 'r']
    ['a', '.', 'p', 'n', 'g'] [] [] [] ['E', 'r', 'r'] []).1 rfl (by decide)

/-- Claim C6 counterexample: the converse half of the claim is false as
stated — with match a, replacement a and filename a.png the replacement
text contains the match string, the match occurs in the filename, and yet
re-application is idempotent. -/
theorem C6_counterexample :
    ['a'] <:+: ['a']
    ∧ ['a'] <:+: ['a', '.', 'p', 'n', 'g']
    ∧ pyReplace ['a'] ['a'] (pyReplace ['a'] ['a'] ['a', '.', 'p', 'n', 'g'])
        = pyReplace ['a'] ['a'] ['a', '.', 'p', 'n', 'g'] := by
  decide

/-- Claim C6 amended: when the match occurs in the filename and the
replacement does not reintroduce it, one application is idempotent — a
second application leaves the name unchanged, a second batch run yields
Skipped with no filesystem call, and a second GUI run makes no rename
attempt for that file; conversely, when the replacement text still
contains the match string re-application need not be idempotent: for
match a, replacement aa and filename a a second application changes the
name again. -/
theorem C6_amended_idempotence (m r s : List Char) (hm : m ≠ []) (hocc : m <:+: s)
    (hno : ¬ m <:+: pyReplace m r s)
    (osRename : List Char → List Char → Except (List Char) Unit) (root : List Char) :
    pyReplace m r (pyReplace m r s) = pyReplace m r s
    ∧ batchStep osRename [(m, r)] root (pyReplace m r s)
        = (RenameOutcome.Skipped (pyReplace m r s), [])
    ∧ (∀ fp : List Char, basename fp = pyReplace m r s →
        guiStep osRename m r fp = (none, []))
    ∧ pyReplace ['a'] ['a', 'a'] (pyReplace ['a'] ['a', 'a'] ['a'])
        ≠ pyReplace ['a'] ['a', 'a'] ['a'] := by
  have hsecond : m <:+: s := hocc
  have hcn : computeNewName [(m, r)] (pyReplace m r s) = pyReplace m r s := by
    simp [computeNewName, applyRule, hno]
  refine ⟨pyReplace_of_not_occurs m r hm _ hno, ?_, ?_, by decide⟩
  · unfold batchStep
    rw [hcn]
    simp
  · intro fp hbn
    simp [guiStep, hbn, hno]

theorem C6_amended_idempotence_witness :
    pyReplace ['_', 'D'] ['_', 'C'] (pyReplace ['_', 'D'] ['_', 'C'] ['w', '_', 'D'])
      = pyReplace ['_', 'D'] ['_', 'C'] ['w', '_', 'D'] :=
  (C6_amended_idempotence ['_', 'D'] ['_', 'C'] ['w', '_', 'D'] (by decide) (by decide)
    (by decide) renameAlwaysOk ['/', 'r']).1

/-- Claim C7: the candidate working set built by the GUI dropEvent intake
never holds a path twice — offering an already-present path leaves the
set unchanged, the set built from any offer sequence has no duplicates,
and later offers only extend the set at the end, so the relative order of
first insertion is preserved. -/
theorem C7_intake_dedup (isFile : List Char → Bool) (offers more : List (List Char))
    (acc : List (List Char)) (fp : List Char) :
    (fp ∈ acc → offer isFile acc fp = acc)
    ∧ (intake isFile offers).Nodup
    ∧ intake isFile offers <+: intake isFile (offers ++ more) := by
  refine ⟨offer_mem isFile acc fp, foldl_offer_nodup isFile offers [] (by simp), ?_⟩
  unfold intake
  rw [List.foldl_append]
  exact foldl_offer_extends isFile more (offers.foldl (offer isFile) [])

theorem C7_intake_dedup_witness :
    offer (fun _ => true) [['/', 'a']] ['/', 'a'] = [['/', 'a']] :=
  (C7_intake_dedup (fun _ => true) [] [] [['/', 'a']] ['/', 'a']).1 (by decide)

/-- Claim C8: every click of Process in the GUI variants either fails
validation — no candidates, or empty stripped pattern — leaving the
state exactly as it was, or processes the candidates and then clears the
working set unconditionally, whatever the rename outcomes were. -/
theorem C8_clear_after_processing (osRename : List Char → List Char → Except (List Char) Unit)
    (st : GuiState) :
    (st.files = [] ∧ gui_rename_files osRename st = (GuiResult.noFiles, st))
    ∨ (pyStrip st.patternInput = []
        ∧ gui_rename_files osRename st = (GuiResult.emptyPattern, st))
    ∨ ((gui_rename_files osRename st).2.files = []
        ∧ ∃ outs calls, (gui_rename_files osRename st).1 = GuiResult.processed outs calls) := by
  by_cases h1 : st.files = []
  · left
    exact ⟨h1, by simp [gui_rename_files, h1]⟩
  · by_cases h2 : pyStrip st.patternInput = []
    · right; left
      exact ⟨h2, by simp [gui_rename_files, h1, h2]⟩
    · right; right
      constructor
      · simp [gui_rename_files, h1, h2]
      · exact ⟨guiOutcomes osRename (pyStrip st.patternInput) (pyStrip st.replaceInput) st.files,
          guiCalls osRename (pyStrip st.patternInput) (pyStrip st.replaceInput) st.files,
          by simp [gui_rename_files, h1, h2]⟩

/-- Claim C9: the batch rule loader is total — the NameError raised by
the unimported csv module is caught inside load_rename_patterns and the
empty mapping is returned — and a run with the empty mapping computes a
new name equal to the old name for every file, so every .png file is
reported Skipped and no rename system call is made. -/
theorem C9_loader_empty_all_skipped (osRename : List Char → List Char → Except (List Char) Unit)
    (root : List Char) (files : List (List Char)) :
    load_rename_patterns = []
    ∧ (∀ file : List Char, computeNewName load_rename_patterns file = file)
    ∧ batchOutcomes osRename load_rename_patterns root files
        = (files.filter isPng).map RenameOutcome.Skipped
    ∧ batchCalls osRename load_rename_patterns root files = [] := by
  have hstep : ∀ file : List Char,
      batchStep osRename [] root file = (RenameOutcome.Skipped file, []) := by
    intro file
    simp [batchStep, computeNewName]
  refine ⟨rfl, fun _ => rfl, ?_, ?_⟩
  · show batchOutcomes osRename [] root files = (files.filter isPng).map RenameOutcome.Skipped
    simp [batchOutcomes, hstep]
  · show batchCalls osRename [] root files = []
    simp [batchCalls, hstep]

theorem pyStrip_nil : pyStrip [] = [] := rfl

/-- Claim C10: both GUI variants strip surrounding whitespace from the
pattern and replacement inputs before validating and matching — a
whitespace-only pattern is rejected with the empty-pattern validation
path, and a run behaves exactly as if the user had typed the stripped
texts, so surrounding whitespace never takes part in matching and never
appears in a computed name. -/
theorem C10_strip_inputs (osRename : List Char → List Char → Except (List Char) Unit)
    (files : List (List Char)) (p r : List Char) :
    ((∀ c ∈ p, c.isWhitespace) → files ≠ [] →
      gui_rename_files osRename ⟨files, p, r⟩ = (GuiResult.emptyPattern, ⟨files, p, r⟩))
    ∧ (gui_rename_files osRename ⟨files, p, r⟩).1
        = (gui_rename_files osRename ⟨files, pyStrip p, pyStrip r⟩).1
    ∧ (gui_rename_files osRename ⟨files, p, r⟩).2.files
        = (gui_rename_files osRename ⟨files, pyStrip p, pyStrip r⟩).2.files := by
  refine ⟨?_, ?_, ?_⟩
  · intro hws hf
    simp [gui_rename_files, hf, pyStrip_eq_nil_of_ws p hws]
  · by_cases hf : files = []
    · simp [gui_rename_files, hf]
    · by_cases hp : pyStrip p = []
      · simp [gui_rename_files, hf, hp, pyStrip_idem, pyStrip_nil]
      · simp [gui_rename_files, hf, hp, pyStrip_idem]
  · by_cases hf : files = []
    · simp [gui_rename_files, hf]
    · by_cases hp : pyStrip p = []
      · simp [gui_rename_files, hf, hp, pyStrip_idem, pyStrip_nil]
      · simp [gui_rename_files, hf, hp, pyStrip_idem]

theorem C10_strip_inputs_witness :
    gui_rename_files renameAlwaysOk ⟨[['/', 'd', '/', 'a']], [' '], ['x']⟩
      = (GuiResult.emptyPattern, ⟨[['/', 'd', '/', 'a']], [' '], ['x']⟩) :=
  (C10_strip_inputs renameAlwaysOk [['/', 'd', '/', 'a']] [' '] ['x']).1
    (by decide) (by decide)
